import Mathlib

/-!
Verification of the Faster-Whisper-Transcription-API processing pipeline.

Shallow embedding of the repository source in Lean 4:
  * `config/settings.py`                       — environment-driven configuration
  * `core/MyThreadPool.py`                     — global semaphore and worker pool
  * `core/slice_tools/concurrency_optimizer.py`— optimal-concurrency computation
  * `core/slice_tools/merge_slice.py`          — slice-plan compaction
  * `core/slice_tools/process_slice.py`        — per-slice processing and aggregation
  * `core/transcriber.py`                      — engine adapter
  * `core/model_loader.py`                     — model cache
  * `core/processing_strategy.py`              — strategy router and slice pipeline

Machine integers are modelled as `Nat`/`Int` (Python integers are unbounded),
audio durations and timestamps as `Rat`, and the filesystem as an inductive
`FsPath` type that distinguishes the temp files the pipeline creates.
External effects (engine calls, downloads, CPU sampling, file existence) are
passed in as explicit outcome values.
-/

namespace FWT

/-! ### config/settings.py -/

/-- An environment: a partial map from variable names to string values,
modelling `os.getenv`. -/
def Env : Type := String → Option String

/-- Decimal value of a digit string, modelling Python `int(value)` on a string
that passed `value.isdigit()` (digits are modelled as ASCII `0`-`9`). -/
def pyIntOfDigits (s : String) : Nat :=
  s.foldl (fun a c => a * 10 + (c.toNat - 48)) 0

/-- Source `config/settings.py` `_int_env`:
`int(value) if value and value.isdigit() else default`.
`value` is falsy when the variable is unset or empty. -/
def _int_env (env : Env) (key : String) (default : Int) : Int :=
  match env key with
  | none => default
  | some value =>
      if value ≠ "" ∧ value.data.all Char.isDigit then (pyIntOfDigits value : Int)
      else default

/-- Source `config/settings.py` `CONCURRENCY_CONFIG` (the integer-valued keys). -/
structure ConcurrencyConfig where
  default_max_concurrent : Int
  min_concurrent_limit : Int
  max_concurrent_limit : Int
  slices_per_thread : Int
deriving DecidableEq

def CONCURRENCY_CONFIG (env : Env) : ConcurrencyConfig :=
  { default_max_concurrent := _int_env env "MAX_CONCURRENT" 2
    min_concurrent_limit := _int_env env "MIN_CONCURRENT" 1
    max_concurrent_limit := _int_env env "MAX_CONCURRENT_LIMIT" 3
    slices_per_thread := _int_env env "SLICES_PER_THREAD" 4 }

/-- Source `config/settings.py` `AUDIO_SLICE_CONFIG` (the integer-valued keys). -/
structure AudioSliceConfig where
  min_slice_length : Int
  max_slice_length : Int
  min_interval : Int
  threshold : Int
  hop_size : Int
  max_sil_kept : Int
  max_total_slices : Int
deriving DecidableEq

def AUDIO_SLICE_CONFIG (env : Env) : AudioSliceConfig :=
  { min_slice_length := _int_env env "MIN_SLICE_LENGTH" 30000
    max_slice_length := _int_env env "MAX_SLICE_LENGTH" 120000
    min_interval := _int_env env "MIN_INTERVAL" 500
    threshold := _int_env env "THRESHOLD" (-40)
    hop_size := _int_env env "HOP_SIZE" 20
    max_sil_kept := _int_env env "MAX_SIL_KEPT" 1000
    max_total_slices := _int_env env "MAX_TOTAL_SLICES" 144 }

/-! ### core/MyThreadPool.py -/

/-- `MAX_CONCURRENT = CONCURRENCY_CONFIG["max_concurrent_limit"]`; this is the
permit count of the global `transcribe_semaphore` (`Semaphore(MAX_CONCURRENT)`). -/
def MAX_CONCURRENT (env : Env) : Int := (CONCURRENCY_CONFIG env).max_concurrent_limit

/-- `MAX_WORKERS = min(MAX_CONCURRENT + 2, 32)`: the size of the per-process
worker pool `executor`. -/
def MAX_WORKERS (env : Env) : Int := min (MAX_CONCURRENT env + 2) 32

/-- The environment with no relevant variable set: every config key takes its
compiled-in default. -/
def emptyEnv : Env := fun _ => none

/-! ### core/slice_tools/concurrency_optimizer.py

`ConcurrencyOptimizer` reads `self.system_cores = os.cpu_count() or 4` and
`self.config = CONCURRENCY_CONFIG`; both are passed explicitly here.
Python `//` on the non-negative operands below is `Int.fdiv`; the float
products `int(cores * 0.8)`, `int(cores * 0.6)`, `int(cores * 0.5)` and
`int(cores * 0.75)` are modelled exactly as `⌊4c/5⌋`, `⌊3c/5⌋`, `⌊c/2⌋`,
`⌊3c/4⌋` (truncation towards zero equals floor for the non-negative core
counts the source reads). -/

/-- `math.ceil(n / s)` for integer `n` and positive integer `s`. -/
def mathCeilDiv (n s : Int) : Int := Int.fdiv (n + s - 1) s

/-- Source `_calculate_cpu_based`. -/
def _calculate_cpu_based (system_cores : Int) : Int :=
  if system_cores ≤ 4 then max 1 (system_cores - 1)
  else if system_cores ≤ 8 then max 2 (system_cores - 2)
  else if system_cores ≤ 16 then max 4 (system_cores - 4)
  else if system_cores ≤ 32 then max 8 (system_cores - 8)
  else min 32 (Int.fdiv (3 * system_cores) 4)

/-- Source `_calculate_slice_based`. -/
def _calculate_slice_based (config : ConcurrencyConfig) (total_slices : Int) : Int :=
  let slices_per_thread := config.slices_per_thread
  if total_slices ≤ 5 then min 2 total_slices
  else if total_slices ≤ 20 then min 8 (mathCeilDiv total_slices slices_per_thread)
  else if total_slices ≤ 50 then min 16 (mathCeilDiv total_slices slices_per_thread)
  else if total_slices ≤ 100 then min 24 (mathCeilDiv total_slices slices_per_thread)
  else min config.max_concurrent_limit (mathCeilDiv total_slices slices_per_thread)

/-- Source `_calculate_duration_based`. -/
def _calculate_duration_based (config : ConcurrencyConfig) (system_cores : Int)
    (audio_duration : Rat) : Int :=
  let duration_minutes := audio_duration / 60
  if duration_minutes > 60 then
    min config.max_concurrent_limit (max 4 (Int.fdiv (4 * system_cores) 5))
  else if duration_minutes > 30 then
    min config.max_concurrent_limit (max 3 (Int.fdiv (3 * system_cores) 5))
  else
    min config.max_concurrent_limit (max 2 (Int.fdiv system_cores 2))

/-- Outcome of sampling `psutil.cpu_percent` / `psutil.virtual_memory` inside
`_calculate_load_based`; `failure` models the `except Exception` branch. -/
inductive LoadSample where
  | ok (cpu_percent : Rat) (memory_percent : Rat)
  | failure
deriving DecidableEq

/-- Source `_calculate_load_based`. -/
def _calculate_load_based (system_cores : Int) : LoadSample → Int
  | .ok cpu_percent memory_percent =>
      if cpu_percent > 80 ∨ memory_percent > 80 then max 1 (Int.fdiv system_cores 2)
      else if cpu_percent > 60 then max 2 (system_cores - 2)
      else system_cores
  | .failure => max 2 (system_cores - 2)

/-- Source `ConcurrencyOptimizer.calculate_optimal_concurrency`. -/
def calculate_optimal_concurrency (config : ConcurrencyConfig) (system_cores : Int)
    (total_slices : Int) (audio_duration : Rat) (consider_system_load : Bool)
    (sample : LoadSample) : Int :=
  let cpu_based := _calculate_cpu_based system_cores
  let slice_based := _calculate_slice_based config total_slices
  let duration_based := _calculate_duration_based config system_cores audio_duration
  let load_based := if consider_system_load then _calculate_load_based system_cores sample
                    else cpu_based
  let soft_recommend := max slice_based (max duration_based load_based)
  let hard_limit := min cpu_based config.max_concurrent_limit
  let optimal := min hard_limit soft_recommend
  max optimal config.min_concurrent_limit

/-- `clamp x lo hi`: truncation of `x` into `[lo, hi]`, as the specification
phrase `clamp(min(hard, soft), MIN, LIMIT)` reads. -/
def clamp (x lo hi : Int) : Int := min (max x lo) hi

/-! ### Filesystem paths

The temp files the pipeline touches, as distinguishable values:
`upload i` is the `tempfile.NamedTemporaryFile` saved for the i-th uploaded
file; `slice i` is `{base_name}_slice_{i:04d}.wav` written by
`slice_audio_file`; `merged i j` is `merged_{i}_{j}.wav` written by
`_merge_slice_batch` in the same temp directory. -/
inductive FsPath where
  | upload (i : Nat)
  | slice (i : Nat)
  | merged (firstIdx lastIdx : Nat)
deriving DecidableEq, Repr

/-! ### core/slice_tools/merge_slice.py -/

/-- A slice-plan entry as built by `slice_audio_file` / `_merge_slice_batch`
(the dict keys `path`, `index`, `duration`, `start_time`, and the merge
metadata added by `_merge_slice_batch`). -/
structure SliceInfo where
  path : FsPath
  index : Nat
  duration : Rat
  start_time : Rat
  is_merged : Bool := false
  merged_count : Nat := 0
  original_indices : List Nat := []
deriving DecidableEq, Repr

/-- Source `_merge_slice_batch`, success path: load every batch member,
concatenate, write `merged_{first.index}_{last.index}.wav`, and return the
merged entry (`duration` is the batch sum, `index`/`start_time` come from the
first element). An empty batch raises `ValueError` in the source and is never
produced by `merge_large_slices`; a singleton batch is returned unchanged. -/
def _merge_slice_batch (slice_batch : List SliceInfo) : SliceInfo :=
  match slice_batch with
  | [] => { path := FsPath.slice 0, index := 0, duration := 0, start_time := 0 }
  | [s] => s
  | first :: rest =>
      let last := (first :: rest).getLast (by simp)
      { path := FsPath.merged first.index last.index
        index := first.index
        duration := ((first :: rest).map SliceInfo.duration).sum
        start_time := first.start_time
        is_merged := true
        merged_count := (first :: rest).length
        original_indices := (first :: rest).map SliceInfo.index }

/-- Fuel-driven helper for `chunksOf`; structural recursion on the fuel keeps
the function kernel-computable. With `fuel ≥ l.length` it splits `l` into
consecutive runs of `k` elements (`l[i:i+k]` for `i = 0, k, 2k, ...`). -/
def chunksOfFuel (k : Nat) : Nat → List α → List (List α)
  | _, [] => []
  | 0, l => [l]
  | fuel + 1, x :: xs => (x :: xs.take (k - 1)) :: chunksOfFuel k fuel (xs.drop (k - 1))

/-- The batches `slice_infos[i:i + merge_factor]` visited by the loop
`for i in range(0, len(slice_infos), merge_factor)` in `merge_large_slices`
(for `k ≥ 1`, which always holds since `merge_factor = n // max + 1`). -/
def chunksOf (k : Nat) (l : List α) : List (List α) := chunksOfFuel k l.length l

/-- Source `merge_large_slices`. -/
def merge_large_slices (slice_infos : List SliceInfo) (max_slices : Nat) : List SliceInfo :=
  if slice_infos.length ≤ max_slices then slice_infos
  else
    let merge_factor := slice_infos.length / max_slices + 1
    (chunksOf merge_factor slice_infos).map fun batch =>
      match batch with
      | [s] => s
      | b => _merge_slice_batch b

/-! ### Temp-file effects of the slice pipeline

`process_slice_strategy` (`core/processing_strategy.py`) rebinds
`slice_infos` to the compacted list when `len(slice_infos) >
max_total_slices`, and its `finally` block calls
`cleanup_slices(slice_infos)` (`core/audio_slicer.py`), which unlinks exactly
the `path` of each entry of the list it is given. -/

/-- Paths unlinked by `cleanup_slices`: the `path` field of each entry. -/
def cleanup_slices_paths (slice_infos : List SliceInfo) : List FsPath :=
  slice_infos.map SliceInfo.path

/-- Paths of the merged WAV files written by `sf.write` during compaction:
one per batch of size `≥ 2` (success path of `_merge_slice_batch`). -/
def merged_files_written (slice_infos : List SliceInfo) (max_slices : Nat) : List FsPath :=
  if slice_infos.length ≤ max_slices then []
  else
    (chunksOf (slice_infos.length / max_slices + 1) slice_infos).filterMap fun batch =>
      match batch with
      | [] => none
      | [_] => none
      | b => some (_merge_slice_batch b).path

/-- All temp files created by a slice-strategy request: the uploaded temp
files, the slice WAVs written by `slice_audio_file`, and the merged WAVs
written during compaction. -/
def transcribe_slice_created (uploads : List FsPath) (slice_infos : List SliceInfo)
    (max_slices : Nat) : List FsPath :=
  uploads ++ cleanup_slices_paths slice_infos ++ merged_files_written slice_infos max_slices

/-- All temp files unlinked before the response: the uploaded temp files
(`finally` of the `transcribe` endpoint) and the paths of the final —
possibly compacted — slice list (`finally` of `process_slice_strategy`). -/
def transcribe_slice_unlinked (uploads : List FsPath) (slice_infos : List SliceInfo)
    (max_slices : Nat) : List FsPath :=
  uploads ++ cleanup_slices_paths (merge_large_slices slice_infos max_slices)

/-! ### core/transcriber.py -/

/-- One segment of the engine output (`{"start": seg.start, "end": seg.end,
"text": seg.text}`); the Python key `end` is a Lean keyword and is spelled
`stop` here. -/
structure Segment where
  start : Rat
  stop : Rat
  text : String
deriving DecidableEq, Repr

/-- The `info` value returned by `model.transcribe`. -/
structure TranscriptionInfo where
  language : String
  language_probability : Rat
deriving DecidableEq, Repr

/-- Outcome of the engine call `model.transcribe(file_path, **kwargs)`:
either the materialised segment stream with its info, or a raised exception
message (caught by `except Exception as e`). -/
inductive EngineOutcome where
  | ok (segments : List Segment) (info : TranscriptionInfo)
  | err (msg : String)
deriving DecidableEq

/-- The heterogeneous result dict flowing through the pipeline
(`transcribe_audio` return value, later extended with `slice_index` by
`process_slice` and `slice_start_time` by `process_slice_strategy`).
A `some` field models presence of the corresponding key. -/
structure TranscribeResult where
  transcript : Option String := none
  language : Option String := none
  language_probability : Option Rat := none
  segments : Option (List Segment) := none
  error : Option String := none
  slice_index : Option Nat := none
  slice_start_time : Option Rat := none
deriving DecidableEq, Repr

/-- Source `transcribe_audio`, as a function of the engine outcome: on
success it returns the transcript (the `"".join` of the segment texts), the
detected language data and the segment dicts; on any engine exception it
returns `{"error": str(e)}`. The semaphore acquire/release bracketing this
call is modelled by `SemStep` below. -/
def transcribe_audio : EngineOutcome → TranscribeResult
  | .ok segments info =>
      { transcript := some (String.join (segments.map Segment.text))
        language := some info.language
        language_probability := some info.language_probability
        segments := some segments }
  | .err e => { error := some e }

/-! ### core/slice_tools/process_slice.py -/

/-- Source `process_slice`: run `transcribe_audio` on the slice file and tag
the result with the slice index. The engine outcome for this slice is passed
explicitly. -/
def process_slice (slice_info : SliceInfo) (outcome : EngineOutcome) : TranscribeResult :=
  { transcribe_audio outcome with slice_index := some slice_info.index }

/-- Accumulator of the `for result in slice_results` loop in
`aggregate_results`. -/
structure AggAcc where
  full_text : String
  all_segments : List Segment
  detected_language : Option String
  language_probability : Rat
  failed_slices : Nat
deriving Repr

/-- One iteration of the aggregation loop: error entries only bump
`failed_slices`; otherwise the transcript is appended (plus `" "`), the
segments are extended, and the first reported language is kept. -/
def aggregate_step (acc : AggAcc) (result : TranscribeResult) : AggAcc :=
  if result.error.isSome then { acc with failed_slices := acc.failed_slices + 1 }
  else
    let acc1 := match result.transcript with
      | some t => { acc with full_text := acc.full_text ++ t ++ " " }
      | none => acc
    let acc2 := match result.segments with
      | some segs => { acc1 with all_segments := acc1.all_segments ++ segs }
      | none => acc1
    if result.language.isSome && acc2.detected_language.isNone then
      { acc2 with detected_language := result.language
                  language_probability := result.language_probability.getD 0 }
    else acc2

/-- The aggregated per-file result built by `aggregate_results`. -/
structure AggregateResult where
  transcript : String
  language : Option String
  language_probability : Rat
  segments : List Segment
  total_segments : Nat
  total_slices : Nat
  successful_slices : Nat
  failed_slices : Nat
  warning : Option String
deriving Repr

/-- The comparison key of `all_segments.sort(key=lambda x: x["start"])`. -/
def segLE (a b : Segment) : Prop := a.start ≤ b.start

instance : DecidableRel segLE := fun a b => inferInstanceAs (Decidable (a.start ≤ b.start))

instance : IsTotal Segment segLE := ⟨fun a b => le_total a.start b.start⟩

instance : IsTrans Segment segLE := ⟨fun _ _ _ hab hbc => le_trans hab hbc⟩

/-- Source `aggregate_results`. Python `list.sort` is a stable sort; it is
modelled by the (also stable) `List.insertionSort`. `full_text.strip()` is
`String.trim`. -/
def aggregate_results (slice_results : List TranscribeResult) : AggregateResult :=
  let acc := slice_results.foldl aggregate_step
    { full_text := "", all_segments := [], detected_language := none
      language_probability := 0, failed_slices := 0 }
  let sorted_segments := acc.all_segments.insertionSort segLE
  { transcript := acc.full_text.trim
    language := acc.detected_language
    language_probability := acc.language_probability
    segments := sorted_segments
    total_segments := sorted_segments.length
    total_slices := slice_results.length
    successful_slices := slice_results.length - acc.failed_slices
    failed_slices := acc.failed_slices
    warning :=
      if acc.failed_slices > 0 then
        some ("有 " ++ toString acc.failed_slices ++ "/" ++ toString slice_results.length
              ++ " 个切片处理失败，结果可能不完整。")
      else none }

/-! ### core/processing_strategy.py — slice pipeline result flow -/

/-- Timestamp re-anchoring applied in the `as_completed` loop of
`process_slice_strategy`: `segment["start"] += slice_info["start_time"]` and
likewise for `end`. -/
def anchorSegment (start_time : Rat) (seg : Segment) : Segment :=
  { seg with start := seg.start + start_time, stop := seg.stop + start_time }

/-- Per-result step of the collection loop: look up the slice whose `index`
matches the result's `slice_index` (`next(s for s in slice_infos ...)`),
shift every segment by its `start_time`, and record `slice_start_time`.
A result with no matching slice raises `StopIteration` in the source, which
aborts the whole request (no FileResult is emitted); it is left unchanged
here and only the matched case is relevant to the aggregation theorems. -/
def attach_slice_start (slice_infos : List SliceInfo) (result : TranscribeResult) :
    TranscribeResult :=
  match slice_infos.find? (fun s => result.slice_index = some s.index) with
  | some slice_info =>
      { result with
          segments := result.segments.map (List.map (anchorSegment slice_info.start_time))
          slice_start_time := some slice_info.start_time }
  | none => result

/-- The key of `results.sort(key=lambda x: x.get("slice_start_time", 0))`. -/
def sliceStartLE (a b : TranscribeResult) : Prop :=
  a.slice_start_time.getD 0 ≤ b.slice_start_time.getD 0

instance : DecidableRel sliceStartLE := fun a b =>
  inferInstanceAs (Decidable (a.slice_start_time.getD 0 ≤ b.slice_start_time.getD 0))

instance : IsTotal TranscribeResult sliceStartLE :=
  ⟨fun a b => le_total (a.slice_start_time.getD 0) (b.slice_start_time.getD 0)⟩

instance : IsTrans TranscribeResult sliceStartLE := ⟨fun _ _ _ hab hbc => le_trans hab hbc⟩

/-- The aggregation stage of `process_slice_strategy`: anchor every collected
result, sort by `slice_start_time`, and aggregate. `raw_results` are the
values returned by the `process_slice` futures (in completion order). -/
def process_slice_aggregate (slice_infos : List SliceInfo)
    (raw_results : List TranscribeResult) : AggregateResult :=
  aggregate_results
    ((raw_results.map (attach_slice_start slice_infos)).insertionSort sliceStartLE)

/-! ### core/processing_strategy.py — strategy router -/

/-- One entry of `file_infos` as built by the `transcribe` endpoint
(`filename`, `path`, `content_type`, `duration`, `type`, `requires_slicing`;
the dict key `type` is spelled `file_type`). -/
structure FileInfo where
  filename : String
  path : FsPath
  content_type : String
  duration : Rat
  file_type : String
  requires_slicing : Bool
deriving DecidableEq, Repr

/-- The three strategies returned by `determine_processing_strategy`. -/
inductive Strategy where
  | slice_only
  | mixed
  | batch_only
deriving DecidableEq, Repr

/-- Source `determine_processing_strategy`. The source tests
`len(file_infos) == 1` and reads `file_infos[0]`; the singleton pattern below
is that same case. -/
def determine_processing_strategy (file_infos : List FileInfo) (auto_slice : Bool) :
    Strategy :=
  match file_infos with
  | [file_info] =>
      if auto_slice && file_info.requires_slicing then .slice_only else .batch_only
  | _ =>
      let has_long_audio := file_infos.any (·.requires_slicing)
      if has_long_audio && auto_slice then .mixed else .batch_only

/-! ### core/model_loader.py -/

/-- A constructed `WhisperModel` handle, identified by its construction
arguments. -/
structure WhisperModelHandle where
  model_dir : String
  device : String
  compute_type : String
deriving DecidableEq, Repr

/-- `DEVICE_COMPUTE_COMPATIBILITY` from `config/settings.py`. -/
def DEVICE_COMPUTE_COMPATIBILITY : List (String × List String) :=
  [("cpu", ["float32", "int8"]), ("cuda", ["float16", "float32", "int8"])]

/-- Compatibility list for a device (`DEVICE_COMPUTE_COMPATIBILITY[device]`
lookup; `none` models the unsupported-device `ValueError`). -/
def deviceCompat (device : String) : Option (List String) :=
  (DEVICE_COMPUTE_COMPATIBILITY.find? (fun p => p.1 = device)).map Prod.snd

/-- The silent coercion of an unsupported `compute_type` to
`DEVICE_COMPUTE_COMPATIBILITY[device][0]`. -/
def coerced_compute_type (compat : List String) (compute_type : String) : String :=
  if compute_type ∈ compat then compute_type else compat.headD compute_type

/-- The cache key `f"{model_name}_{device}_{compute_type}"` (built after the
compute-type coercion). -/
def model_cache_key (model_name device compute_type : String) : String :=
  model_name ++ "_" ++ device ++ "_" ++ compute_type

/-- The module-global `loaded_models` dict. -/
def ModelCache : Type := List (String × WhisperModelHandle)

/-- Dict lookup `loaded_models[key]` / membership `key in loaded_models`. -/
def cacheLookup (key : String) (cache : ModelCache) : Option WhisperModelHandle :=
  (cache.find? (fun p => p.1 = key)).map Prod.snd

/-- Source `get_model`, with the external effects passed explicitly:
`dir_exists` is `os.path.exists(model_dir)`, `download` the outcome of
`snapshot_download`, `construct` the outcome of `WhisperModel(...)`.
It returns the raised-or-returned value together with the cache state after
the call (`loaded_models` is only assigned on a successful construction).
After a successful download the directory exists, so the
`if not os.path.isdir(model_dir)` re-check passes. -/
def get_model (loaded_models : ModelCache) (dir_exists : Bool)
    (download : Except String Unit) (construct : Except String WhisperModelHandle)
    (model_name device compute_type : String) :
    Except String WhisperModelHandle × ModelCache :=
  match deviceCompat device with
  | none => (Except.error ("不支持的设备: " ++ device), loaded_models)
  | some compat =>
      let compute_type := coerced_compute_type compat compute_type
      let key := model_cache_key model_name device compute_type
      match cacheLookup key loaded_models with
      | some handle => (Except.ok handle, loaded_models)
      | none =>
          let afterDownload : Except String Unit :=
            if dir_exists then Except.ok () else download
          match afterDownload with
          | Except.error e =>
              (Except.error ("模型 " ++ model_name ++ " 下载失败: " ++ e), loaded_models)
          | Except.ok _ =>
              match construct with
              | Except.error e => (Except.error ("加载模型失败: " ++ e), loaded_models)
              | Except.ok handle => (Except.ok handle, (key, handle) :: loaded_models)

/-! ### core/MyThreadPool.py + core/transcriber.py — the global semaphore

`transcribe_semaphore = Semaphore(MAX_CONCURRENT)` is process-wide; every
`transcribe_audio` call runs `acquire()`, then the engine call inside `try`,
then `release()` in `finally` — on the success path and on the exception
path alike. The interleaving of concurrent calls is a transition system over
the permit counter and the per-thread control points of `transcribe_audio`. -/

/-- Control points of one `transcribe_audio` call. -/
inductive ThreadPhase where
  | idle        -- before `transcribe_semaphore.acquire()`
  | acquired    -- permit held, before `model.transcribe`
  | calling     -- engine call in flight
  | returned    -- engine call finished (result built or exception caught)
  | released    -- after `transcribe_semaphore.release()` in `finally`
deriving DecidableEq, Repr

/-- Process state: the semaphore's permit counter and each thread's phase. -/
structure SemState where
  permits : Nat
  threads : List ThreadPhase
deriving DecidableEq, Repr

/-- Interleaved execution steps of the semaphore discipline in
`transcribe_audio`. `acquire` blocks unless a permit is free; `endCall`
covers both the successful return and the caught exception (`ok` flag);
`release` models the `finally` block and frees the permit in either case. -/
inductive SemStep : SemState → SemState → Prop where
  | acquire (s : SemState) (i : Nat) (h : s.threads.get? i = some .idle)
      (hp : 0 < s.permits) :
      SemStep s ⟨s.permits - 1, s.threads.set i .acquired⟩
  | startCall (s : SemState) (i : Nat) (h : s.threads.get? i = some .acquired) :
      SemStep s ⟨s.permits, s.threads.set i .calling⟩
  | endCall (s : SemState) (i : Nat) (ok : Bool) (h : s.threads.get? i = some .calling) :
      SemStep s ⟨s.permits, s.threads.set i .returned⟩
  | release (s : SemState) (i : Nat) (h : s.threads.get? i = some .returned) :
      SemStep s ⟨s.permits + 1, s.threads.set i .released⟩

/-- Number of engine calls in flight. -/
def inFlight (s : SemState) : Nat :=
  s.threads.countP (fun p => decide (p = ThreadPhase.calling))

/-- Number of threads holding a permit (between `acquire` and `release`). -/
def holdingPermit (s : SemState) : Nat :=
  s.threads.countP (fun p =>
    decide (p = ThreadPhase.acquired ∨ p = ThreadPhase.calling ∨ p = ThreadPhase.returned))

/-- Initial state: the semaphore is created with `limit` permits
(`Semaphore(MAX_CONCURRENT)`) and no call has started. -/
def initState (limit n : Nat) : SemState := ⟨limit, List.replicate n .idle⟩

/-- A state reachable by any interleaving of concurrent `transcribe_audio`
calls. -/
def SemReachable (limit n : Nat) (s : SemState) : Prop :=
  Relation.ReflTransGen SemStep (initState limit n) s

/-! ## Theorems -/

/-- Counting after a point update: replacing the element at `i` (known to be
`b`) by `a` trades `b`'s contribution for `a`'s. -/
theorem countP_set_of_get (p : ThreadPhase → Bool) :
    ∀ (l : List ThreadPhase) (i : Nat) (a b : ThreadPhase), l.get? i = some b →
      (l.set i a).countP p + (if p b then 1 else 0) =
        l.countP p + (if p a then 1 else 0) := by
  intro l
  induction l with
  | nil => intro i a b h; simp at h
  | cons x xs ih =>
      intro i a b h
      cases i with
      | zero =>
          simp only [List.get?] at h
          injection h with hxb
          subst hxb
          simp only [List.set, List.countP_cons]
          cases hpa : p a <;> cases hpx : p x <;> simp [hpa, hpx]
      | succ j =>
          simp only [List.get?] at h
          have ihj := ih j a b h
          simp only [List.set, List.countP_cons]
          cases hpa : p a <;> cases hpb : p b <;> cases hpx : p x <;>
            simp only [hpa, hpb, hpx, if_true, if_false] at ihj ⊢ <;> omega

/-- The phases that hold a semaphore permit. -/
def holdsPermit (p : ThreadPhase) : Bool :=
  decide (p = ThreadPhase.acquired ∨ p = ThreadPhase.calling ∨ p = ThreadPhase.returned)

/-- The permit-accounting invariant of the transition system: free permits
plus held permits always equal the semaphore's initial permit count. -/
def SemInv (limit : Nat) (s : SemState) : Prop :=
  s.permits + holdingPermit s = limit

theorem holdingPermit_eq_countP (s : SemState) :
    holdingPermit s = s.threads.countP holdsPermit := by
  unfold holdingPermit holdsPermit
  rfl

theorem semInv_init (limit n : Nat) : SemInv limit (initState limit n) := by
  unfold SemInv initState
  rw [holdingPermit_eq_countP]
  simp only
  have hz : List.countP holdsPermit (List.replicate n ThreadPhase.idle) = 0 := by
    rw [List.countP_eq_zero]
    intro a ha
    rw [List.eq_of_mem_replicate ha]
    decide
  rw [hz]
  omega

theorem semInv_step (limit : Nat) {s t : SemState} (hst : SemStep s t)
    (hinv : SemInv limit s) : SemInv limit t := by
  unfold SemInv at hinv ⊢
  rw [holdingPermit_eq_countP] at hinv ⊢
  cases hst with
  | acquire i h hp =>
      have hc := countP_set_of_get holdsPermit s.threads i .acquired .idle h
      rw [show (if holdsPermit ThreadPhase.idle then 1 else 0) = 0 from rfl,
          show (if holdsPermit ThreadPhase.acquired then 1 else 0) = 1 from rfl] at hc
      dsimp only
      omega
  | startCall i h =>
      have hc := countP_set_of_get holdsPermit s.threads i .calling .acquired h
      rw [show (if holdsPermit ThreadPhase.acquired then 1 else 0) = 1 from rfl,
          show (if holdsPermit ThreadPhase.calling then 1 else 0) = 1 from rfl] at hc
      dsimp only
      omega
  | endCall i ok h =>
      have hc := countP_set_of_get holdsPermit s.threads i .returned .calling h
      rw [show (if holdsPermit ThreadPhase.calling then 1 else 0) = 1 from rfl,
          show (if holdsPermit ThreadPhase.returned then 1 else 0) = 1 from rfl] at hc
      dsimp only
      omega
  | release i h =>
      have hc := countP_set_of_get holdsPermit s.threads i .released .returned h
      rw [show (if holdsPermit ThreadPhase.returned then 1 else 0) = 1 from rfl,
          show (if holdsPermit ThreadPhase.released then 1 else 0) = 0 from rfl] at hc
      dsimp only
      omega

theorem inFlight_le_holdingPermit (s : SemState) : inFlight s ≤ holdingPermit s := by
  unfold inFlight
  rw [holdingPermit_eq_countP]
  induction s.threads with
  | nil => simp
  | cons x xs ih =>
      simp only [List.countP_cons]
      have hx : (if decide (x = ThreadPhase.calling) = true then 1 else 0) ≤
          (if holdsPermit x = true then 1 else 0) := by
        cases x <;> decide
      omega

/-- Claim C2: in every state reachable by any interleaving of concurrent
`transcribe_audio` calls — each acquiring a permit of
`transcribe_semaphore = Semaphore(MAX_CONCURRENT)` before invoking the model
and releasing it in `finally`, also when the engine call fails — the number
of engine calls in flight never exceeds the semaphore's permit count,
`CONCURRENCY_CONFIG["max_concurrent_limit"]`. -/
theorem global_transcribe_bound (env : Env) (n : Nat) (s : SemState)
    (hreach : SemReachable ((MAX_CONCURRENT env).toNat) n s) :
    inFlight s ≤ (MAX_CONCURRENT env).toNat := by
  have hinv : SemInv ((MAX_CONCURRENT env).toNat) s := by
    induction hreach with
    | refl => exact semInv_init _ n
    | tail hsteps hstep ih => exact semInv_step _ hstep ih
  have h1 := inFlight_le_holdingPermit s
  unfold SemInv at hinv
  omega

/-- Claim C2 witness: with the default configuration (3 permits) and two
threads, the state in which thread 0 has acquired the permit and is inside
the engine call is reachable, and its in-flight count respects the bound. -/
theorem global_transcribe_bound_witness :
    inFlight ⟨2, [ThreadPhase.calling, ThreadPhase.idle]⟩ ≤
      (MAX_CONCURRENT emptyEnv).toNat :=
  global_transcribe_bound emptyEnv 2 ⟨2, [ThreadPhase.calling, ThreadPhase.idle]⟩
    (Relation.ReflTransGen.tail
      (Relation.ReflTransGen.single
        (SemStep.acquire (initState ((MAX_CONCURRENT emptyEnv).toNat) 2) 0 rfl
          (by decide)))
      (SemStep.startCall ⟨2, [ThreadPhase.acquired, ThreadPhase.idle]⟩ 0 rfl))

/-- One aggregation-loop step either leaves the collected segments alone
(error entry, or entry without a `segments` key) or appends exactly the
entry's segment list. -/
theorem aggregate_step_all_segments (acc : AggAcc) (r : TranscribeResult) :
    (aggregate_step acc r).all_segments = acc.all_segments ∨
    ∃ segs, r.segments = some segs ∧
      (aggregate_step acc r).all_segments = acc.all_segments ++ segs := by
  unfold aggregate_step
  by_cases he : r.error.isSome = true
  · rw [if_pos he]
    exact Or.inl rfl
  · rw [if_neg he]
    cases ht : r.transcript <;> cases hs : r.segments <;>
      simp only [ht, hs] <;>
      split <;>
      first
        | exact Or.inl rfl
        | exact Or.inr ⟨_, rfl, rfl⟩

/-- Every segment collected by the aggregation fold comes from the initial
accumulator or from the `segments` list of some input entry. -/
theorem foldl_all_segments_mem (rs : List TranscribeResult) :
    ∀ (acc : AggAcc) (s : Segment), s ∈ (rs.foldl aggregate_step acc).all_segments →
      s ∈ acc.all_segments ∨ ∃ r ∈ rs, ∃ segs, r.segments = some segs ∧ s ∈ segs := by
  induction rs with
  | nil => intro acc s hs; exact Or.inl hs
  | cons r rest ih =>
      intro acc s hs
      rcases ih (aggregate_step acc r) s hs with h | ⟨r2, hr2, segs, hsegs, hmem⟩
      · rcases aggregate_step_all_segments acc r with he | ⟨segs, hsegs, he⟩
        · rw [he] at h
          exact Or.inl h
        · rw [he] at h
          rcases List.mem_append.mp h with h1 | h2
          · exact Or.inl h1
          · exact Or.inr ⟨r, List.mem_cons_self r rest, segs, hsegs, h2⟩
      · exact Or.inr ⟨r2, List.mem_cons_of_mem r hr2, segs, hsegs, hmem⟩

/-- Every segment of an aggregated result comes from the `segments` list of
some input entry. -/
theorem aggregate_results_segments_mem (rs : List TranscribeResult) (s : Segment)
    (hs : s ∈ (aggregate_results rs).segments) :
    ∃ r ∈ rs, ∃ segs, r.segments = some segs ∧ s ∈ segs := by
  unfold aggregate_results at hs
  dsimp only at hs
  have hs2 := (List.perm_insertionSort segLE _).mem_iff.mp hs
  rcases foldl_all_segments_mem rs _ s hs2 with h | h
  · simp at h
  · exact h

/-- The aggregated segment list is sorted by `start`: `aggregate_results`
ends with `all_segments.sort(key=lambda x: x["start"])`. -/
theorem aggregate_results_sorted (rs : List TranscribeResult) :
    List.Sorted segLE (aggregate_results rs).segments := by
  unfold aggregate_results
  dsimp only
  exact List.sorted_insertionSort segLE _

/-- Re-anchoring shifts `start` and `end` by the same offset, so it
preserves `start ≤ end`. -/
theorem anchorSegment_wf (t : Rat) (seg : Segment) (h : seg.start ≤ seg.stop) :
    (anchorSegment t seg).start ≤ (anchorSegment t seg).stop := by
  unfold anchorSegment
  dsimp only
  exact add_le_add_right h t

/-- Claim C6: in every FileResult produced by the slice pipeline — collected
engine results anchored by their slice offset, sorted by slice start time,
and aggregated — the segment list is monotonically non-decreasing by
`start`, and, provided every engine-produced segment satisfies
`start ≤ end`, every aggregated segment does too. -/
theorem slice_pipeline_segments_monotone (slice_infos : List SliceInfo)
    (raw_results : List TranscribeResult)
    (hwf : ∀ r ∈ raw_results, ∀ segs, r.segments = some segs →
      ∀ seg ∈ segs, seg.start ≤ seg.stop) :
    List.Chain' segLE (process_slice_aggregate slice_infos raw_results).segments
  ∧ ∀ seg ∈ (process_slice_aggregate slice_infos raw_results).segments,
      seg.start ≤ seg.stop := by
  constructor
  · exact List.Pairwise.chain' (aggregate_results_sorted _)
  · intro seg hseg
    obtain ⟨r, hr, segs, hsegs, hmem⟩ :=
      aggregate_results_segments_mem _ seg hseg
    have hr2 : r ∈ raw_results.map (attach_slice_start slice_infos) :=
      (List.perm_insertionSort sliceStartLE _).mem_iff.mp hr
    obtain ⟨r0, hr0, rfl⟩ := List.mem_map.mp hr2
    unfold attach_slice_start at hsegs
    cases hf : slice_infos.find? (fun s2 => r0.slice_index = some s2.index) with
    | none =>
        rw [hf] at hsegs
        exact hwf r0 hr0 segs hsegs seg hmem
    | some si =>
        rw [hf] at hsegs
        dsimp only at hsegs
        cases h0 : r0.segments with
        | none => rw [h0] at hsegs; simp at hsegs
        | some segs0 =>
            rw [h0] at hsegs
            simp only [Option.map_some'] at hsegs
            injection hsegs with hsegs
            subst hsegs
            obtain ⟨seg0, hseg0, rfl⟩ := List.mem_map.mp hmem
            exact anchorSegment_wf si.start_time seg0 (hwf r0 hr0 segs0 h0 seg0 hseg0)

/-- Claim C6 witness: two slices processed out of order (slice 1 completes
first); the pipeline re-anchors and sorts their segments. -/
theorem slice_pipeline_segments_monotone_witness :
    List.Chain' segLE
      (process_slice_aggregate
        [ { path := .slice 0, index := 0, duration := 5, start_time := 0 },
          { path := .slice 1, index := 1, duration := 5, start_time := 5 } ]
        [ { transcript := some "b", language := some "en",
            language_probability := some 1, segments := some [⟨0, 2, "b"⟩],
            slice_index := some 1 },
          { transcript := some "a", language := some "en",
            language_probability := some 1, segments := some [⟨0, 1, "a"⟩],
            slice_index := some 0 } ]).segments
  ∧ ∀ seg ∈ (process_slice_aggregate
        [ { path := .slice 0, index := 0, duration := 5, start_time := 0 },
          { path := .slice 1, index := 1, duration := 5, start_time := 5 } ]
        [ { transcript := some "b", language := some "en",
            language_probability := some 1, segments := some [⟨0, 2, "b"⟩],
            slice_index := some 1 },
          { transcript := some "a", language := some "en",
            language_probability := some 1, segments := some [⟨0, 1, "a"⟩],
            slice_index := some 0 } ]).segments, seg.start ≤ seg.stop :=
  slice_pipeline_segments_monotone
    [ { path := .slice 0, index := 0, duration := 5, start_time := 0 },
      { path := .slice 1, index := 1, duration := 5, start_time := 5 } ]
    [ { transcript := some "b", language := some "en",
        language_probability := some 1, segments := some [⟨0, 2, "b"⟩],
        slice_index := some 1 },
      { transcript := some "a", language := some "en",
        language_probability := some 1, segments := some [⟨0, 1, "a"⟩],
        slice_index := some 0 } ]
    (by
      intro r hr segs hsegs seg hseg
      simp only [List.mem_cons, List.not_mem_nil, or_false] at hr
      rcases hr with rfl | rfl <;>
        · simp only at hsegs
          injection hsegs with hsegs
          subst hsegs
          simp only [List.mem_singleton] at hseg
          subst hseg
          norm_num)

/-- A concrete slice plan of five one-second slices, as `slice_audio_file`
produces for a file cut five times. -/
def examplePlan : List SliceInfo :=
  [ { path := .slice 0, index := 0, duration := 1, start_time := 0 },
    { path := .slice 1, index := 1, duration := 1, start_time := 1 },
    { path := .slice 2, index := 2, duration := 1, start_time := 2 },
    { path := .slice 3, index := 3, duration := 1, start_time := 3 },
    { path := .slice 4, index := 4, duration := 1, start_time := 4 } ]

/-- Claim C1 (code bug): with `max_total_slices = 2`, compaction replaces
the five slice entries by two merged entries; the cleanup in
`process_slice_strategy` runs on the rebound, compacted list, so the
pre-merge slice WAVs — here `slice 0` — are created but never unlinked,
while the claim requires every created temp file to be unlinked. The
uploaded temp file and the merged WAVs are unlinked as claimed. -/
theorem slice_cleanup_leak :
    FsPath.slice 0 ∈ transcribe_slice_created [FsPath.upload 0] examplePlan 2
  ∧ FsPath.slice 0 ∉ transcribe_slice_unlinked [FsPath.upload 0] examplePlan 2
  ∧ transcribe_slice_unlinked [FsPath.upload 0] examplePlan 2 =
      [FsPath.upload 0, FsPath.merged 0 2, FsPath.merged 3 4] := by decide

/-- Claim C10: an integer configuration value read through `_int_env` falls
back to the compiled-in default whenever the variable is unset, empty, or
contains any non-digit character (including a leading minus sign), and the
parsed branch always yields a non-negative value — so no integer setting can
be made negative through the environment. -/
theorem int_env_default_or_nonneg (env : Env) (key : String) (d : Int) :
    (_int_env env key d = d ∨ 0 ≤ _int_env env key d)
  ∧ (env key = none → _int_env env key d = d)
  ∧ (env key = some "" → _int_env env key d = d)
  ∧ (∀ v : String, env key = some v → (∃ c ∈ v.data, ¬ c.isDigit) →
      _int_env env key d = d)
  ∧ (_int_env env key d < 0 → _int_env env key d = d) := by
  have hmain : _int_env env key d = d ∨ 0 ≤ _int_env env key d := by
    unfold _int_env
    cases henv : env key with
    | none => exact Or.inl rfl
    | some v =>
        dsimp only
        by_cases hc : v ≠ "" ∧ v.data.all Char.isDigit
        · rw [if_pos hc]
          exact Or.inr (Int.natCast_nonneg _)
        · rw [if_neg hc]
          exact Or.inl rfl
  refine ⟨hmain, ?_, ?_, ?_, ?_⟩
  · intro h; unfold _int_env; rw [h]
  · intro h; unfold _int_env; rw [h]; simp
  · intro v hv ⟨c, hcv, hcd⟩
    unfold _int_env
    rw [hv]
    have hnc : ¬ (v ≠ "" ∧ v.data.all Char.isDigit) := by
      intro ⟨_, hall⟩
      exact hcd (by simpa using List.all_eq_true.mp hall c hcv)
    dsimp only
    rw [if_neg hnc]
  · intro hlt
    rcases hmain with h | h
    · exact h
    · omega

/-- Claim C10 witness: `THRESHOLD=-40` in the environment is rejected by the
digit check and the compiled-in default `-40` is used. -/
theorem int_env_default_or_nonneg_witness :
    _int_env (fun _ => some "-40") "THRESHOLD" (-40) = -40 :=
  (int_env_default_or_nonneg (fun _ => some "-40") "THRESHOLD" (-40)).2.2.2.1 "-40" rfl
    ⟨Char.ofNat 45, by decide, by decide⟩

/-- Claim C9 counterexample: with the compiled-in defaults
(`MAX_CONCURRENT_LIMIT = 3`) the pool has `min(3 + 2, 32) = 5` workers, not
`max(3 + 2, 32) = 32` as the claim states. -/
theorem max_workers_counterexample :
    MAX_WORKERS emptyEnv ≠ max (MAX_CONCURRENT emptyEnv + 2) 32 := by decide

/-- Claim C9 (amended): the per-process worker pool is sized to
`min(MAX_CONCURRENT_LIMIT + 2, 32)` workers — in particular never more than
32. -/
theorem max_workers_min_form (env : Env) :
    MAX_WORKERS env = min ((CONCURRENCY_CONFIG env).max_concurrent_limit + 2) 32 ∧
    MAX_WORKERS env ≤ 32 :=
  ⟨rfl, min_le_right _ _⟩

/-- Claim C7: for every engine outcome `transcribe_audio` returns a result
dictionary (it never propagates the engine exception): on success the dict
holds the concatenation of the segment texts as `transcript` together with
the language data and segments, and on engine error it is `{"error": msg}`. -/
theorem transcribe_audio_spec (outcome : EngineOutcome) :
    (∃ segments info, outcome = .ok segments info ∧
        transcribe_audio outcome =
          { transcript := some (String.join (segments.map Segment.text))
            language := some info.language
            language_probability := some info.language_probability
            segments := some segments })
  ∨ (∃ msg, outcome = .err msg ∧ transcribe_audio outcome = { error := some msg }) := by
  cases outcome with
  | ok segments info => exact Or.inl ⟨segments, info, rfl, rfl⟩
  | err msg => exact Or.inr ⟨msg, rfl, rfl⟩

/-- Claim C3: for every non-empty file list and every `auto_slice` flag, the
router returns `slice_only` exactly for a single file that requires slicing
with `auto_slice` on, `mixed` exactly for several files with `auto_slice` on
and at least one requiring slicing, and `batch_only` in every other case. -/
theorem determine_processing_strategy_table (file_infos : List FileInfo)
    (auto_slice : Bool) (hne : file_infos ≠ []) :
    (determine_processing_strategy file_infos auto_slice = .slice_only ↔
       (∃ f, file_infos = [f] ∧ auto_slice = true ∧ f.requires_slicing = true))
  ∧ (determine_processing_strategy file_infos auto_slice = .mixed ↔
       (1 < file_infos.length ∧ auto_slice = true ∧
         ∃ f ∈ file_infos, f.requires_slicing = true))
  ∧ (determine_processing_strategy file_infos auto_slice = .batch_only ↔
       (¬ (∃ f, file_infos = [f] ∧ auto_slice = true ∧ f.requires_slicing = true) ∧
        ¬ (1 < file_infos.length ∧ auto_slice = true ∧
            ∃ f ∈ file_infos, f.requires_slicing = true))) := by
  cases file_infos with
  | nil => exact absurd rfl hne
  | cons a tail =>
      cases tail with
      | nil =>
          cases auto_slice <;> cases ha : a.requires_slicing <;>
            simp_all [determine_processing_strategy]
      | cons b tail2 =>
          cases auto_slice <;>
            cases ha : a.requires_slicing <;>
            cases hb : b.requires_slicing <;>
            by_cases ht : ∃ x ∈ tail2, x.requires_slicing = true <;>
            simp_all [determine_processing_strategy, List.any_eq_true] <;>
            (try (split <;> simp_all))

/-- Claim C8: if, on a cache miss, the model download or the model-handle
construction fails, `get_model` raises (returns an error) and the cache is
left unchanged — in particular the requested key is still absent, so a later
`get_model` for the same key retries the load. -/
theorem get_model_failure_not_cached (loaded_models : ModelCache) (dir_exists : Bool)
    (download : Except String Unit) (construct : Except String WhisperModelHandle)
    (model_name device compute_type : String)
    (hmiss : ∀ compat, deviceCompat device = some compat →
      cacheLookup
        (model_cache_key model_name device (coerced_compute_type compat compute_type))
        loaded_models = none)
    (hfail : (dir_exists = false ∧ ∃ e, download = Except.error e) ∨
             (∃ e, construct = Except.error e)) :
    (∃ msg, (get_model loaded_models dir_exists download construct model_name device
        compute_type).1 = Except.error msg)
  ∧ (get_model loaded_models dir_exists download construct model_name device
      compute_type).2 = loaded_models
  ∧ (∀ compat, deviceCompat device = some compat →
      cacheLookup
        (model_cache_key model_name device (coerced_compute_type compat compute_type))
        (get_model loaded_models dir_exists download construct model_name device
          compute_type).2 = none) := by
  unfold get_model
  cases hdev : deviceCompat device with
  | none => exact ⟨⟨_, rfl⟩, rfl, fun compat hc => by simp [hdev] at hc⟩
  | some compat =>
      dsimp only
      rw [hmiss compat hdev]
      have hkey : ∀ rest,
          (∃ msg, (rest : Except String WhisperModelHandle × ModelCache).1 =
              Except.error msg) → rest.2 = loaded_models →
          (∃ msg, rest.1 = Except.error msg) ∧ rest.2 = loaded_models ∧
          (∀ compat2, some compat = some compat2 →
            cacheLookup
              (model_cache_key model_name device
                (coerced_compute_type compat2 compute_type))
              rest.2 = none) := by
        intro rest h1 h2
        refine ⟨h1, h2, fun compat2 hc => ?_⟩
        cases hc
        rw [h2]
        exact hmiss compat hdev
      cases hde : dir_exists with
      | true =>
          dsimp only [if_true]
          rcases hfail with ⟨hfalse, _⟩ | ⟨e, he⟩
          · exact absurd hde (by rw [hfalse]; exact Bool.false_ne_true)
          · rw [he]
            exact hkey _ ⟨_, rfl⟩ rfl
      | false =>
          dsimp only [Bool.false_eq_true, if_false]
          cases hdl : download with
          | error e => exact hkey _ ⟨_, rfl⟩ rfl
          | ok u =>
              rcases hfail with ⟨_, e, he⟩ | ⟨e, he⟩
              · rw [hdl] at he; cases he
              · rw [he]
                exact hkey _ ⟨_, rfl⟩ rfl

/-- Claim C8 witness: on an empty cache with the model directory absent and
a failing download, `get_model` errors and the cache stays empty. -/
theorem get_model_failure_not_cached_witness :
    (∃ msg, (get_model ([] : ModelCache) false (Except.error "network unreachable")
        (Except.ok { model_dir := "Models/faster-whisper-small", device := "cpu",
                     compute_type := "int8" })
        "faster-whisper-small" "cpu" "int8").1 = Except.error msg)
  ∧ (get_model ([] : ModelCache) false (Except.error "network unreachable")
      (Except.ok { model_dir := "Models/faster-whisper-small", device := "cpu",
                   compute_type := "int8" })
      "faster-whisper-small" "cpu" "int8").2 = []
  ∧ (∀ compat, deviceCompat "cpu" = some compat →
      cacheLookup
        (model_cache_key "faster-whisper-small" "cpu"
          (coerced_compute_type compat "int8"))
        (get_model ([] : ModelCache) false (Except.error "network unreachable")
          (Except.ok { model_dir := "Models/faster-whisper-small", device := "cpu",
                       compute_type := "int8" })
          "faster-whisper-small" "cpu" "int8").2 = none) :=
  get_model_failure_not_cached [] false (Except.error "network unreachable")
    (Except.ok { model_dir := "Models/faster-whisper-small", device := "cpu",
                 compute_type := "int8" })
    "faster-whisper-small" "cpu" "int8"
    (fun _ _ => rfl) (Or.inl ⟨rfl, "network unreachable", rfl⟩)

/-- Claim C4: for all inputs — any slice count, any duration, any
`consider_system_load` flag, any CPU/memory sample outcome including
sampling failure — the optimizer returns an integer in
`[min_concurrent_limit, max_concurrent_limit]`, and the returned value is
`clamp(min(hard, soft), MIN, LIMIT)` for
`soft = max(slice_based, duration_based, load_based_or_cpu_based)` and
`hard = min(cpu_based, LIMIT)`. -/
theorem calculate_optimal_concurrency_clamp (config : ConcurrencyConfig)
    (system_cores total_slices : Int) (audio_duration : Rat)
    (consider_system_load : Bool) (sample : LoadSample)
    (hminmax : config.min_concurrent_limit ≤ config.max_concurrent_limit) :
    config.min_concurrent_limit ≤
      calculate_optimal_concurrency config system_cores total_slices audio_duration
        consider_system_load sample
  ∧ calculate_optimal_concurrency config system_cores total_slices audio_duration
      consider_system_load sample ≤ config.max_concurrent_limit
  ∧ calculate_optimal_concurrency config system_cores total_slices audio_duration
      consider_system_load sample =
    clamp
      (min (min (_calculate_cpu_based system_cores) config.max_concurrent_limit)
        (max (_calculate_slice_based config total_slices)
          (max (_calculate_duration_based config system_cores audio_duration)
            (if consider_system_load then _calculate_load_based system_cores sample
             else _calculate_cpu_based system_cores))))
      config.min_concurrent_limit config.max_concurrent_limit := by
  unfold calculate_optimal_concurrency clamp
  cases consider_system_load <;>
    · simp only [if_true, if_false, Bool.false_eq_true]
      omega

/-- Claim C4 witness: the optimizer at the default configuration, 24 cores,
10 slices, a 600-second file, `consider_system_load` on, and a failed
CPU/memory sample. -/
theorem calculate_optimal_concurrency_clamp_witness :
    (CONCURRENCY_CONFIG emptyEnv).min_concurrent_limit ≤
      calculate_optimal_concurrency (CONCURRENCY_CONFIG emptyEnv) 24 10 600 true .failure
  ∧ calculate_optimal_concurrency (CONCURRENCY_CONFIG emptyEnv) 24 10 600 true .failure ≤
      (CONCURRENCY_CONFIG emptyEnv).max_concurrent_limit
  ∧ calculate_optimal_concurrency (CONCURRENCY_CONFIG emptyEnv) 24 10 600 true .failure =
    clamp
      (min (min (_calculate_cpu_based 24) (CONCURRENCY_CONFIG emptyEnv).max_concurrent_limit)
        (max (_calculate_slice_based (CONCURRENCY_CONFIG emptyEnv) 10)
          (max (_calculate_duration_based (CONCURRENCY_CONFIG emptyEnv) 24 600)
            (if true then _calculate_load_based 24 .failure
             else _calculate_cpu_based 24))))
      (CONCURRENCY_CONFIG emptyEnv).min_concurrent_limit
      (CONCURRENCY_CONFIG emptyEnv).max_concurrent_limit :=
  calculate_optimal_concurrency_clamp (CONCURRENCY_CONFIG emptyEnv) 24 10 600 true .failure
    (by decide)

/-- With enough fuel, the number of chunks is the ceiling `⌈n / k⌉`,
written `(n + k - 1) / k`. -/
theorem chunksOfFuel_length {α : Type} (k : Nat) (hk : 0 < k) :
    ∀ (fuel : Nat) (l : List α), l.length ≤ fuel →
      (chunksOfFuel k fuel l).length = (l.length + k - 1) / k := by
  intro fuel
  induction fuel with
  | zero =>
      intro l hl
      have hnil : l = [] := List.eq_nil_of_length_eq_zero (Nat.le_zero.mp hl)
      subst hnil
      simp only [chunksOfFuel, List.length_nil]
      rw [Nat.div_eq_of_lt (by omega)]
  | succ n ih =>
      intro l hl
      cases l with
      | nil =>
          simp only [chunksOfFuel, List.length_nil]
          rw [Nat.div_eq_of_lt (by omega)]
      | cons x xs =>
          simp only [chunksOfFuel, List.length_cons]
          rw [ih (xs.drop (k - 1)) (by simp only [List.length_drop]; simp at hl; omega)]
          simp only [List.length_drop]
          have hplus : xs.length + 1 + k - 1 = xs.length + k := by omega
          rw [hplus, Nat.add_div_right _ hk]
          rcases le_or_lt (k - 1) xs.length with h | h
          · have heq : xs.length - (k - 1) + k - 1 = xs.length := by omega
            rw [heq]
          · have h0 : xs.length - (k - 1) = 0 := by omega
            rw [h0, Nat.zero_add, Nat.div_eq_of_lt (by omega),
              Nat.div_eq_of_lt (by omega)]

/-- The number of batches visited by `merge_large_slices` is `⌈n / k⌉`. -/
theorem chunksOf_length {α : Type} (k : Nat) (hk : 0 < k) (l : List α) :
    (chunksOf k l).length = (l.length + k - 1) / k :=
  chunksOfFuel_length k hk l.length l le_rfl

/-- Arithmetic core of the compaction bound: with `k = n / M + 1` batches of
size `k`, the batch count `⌈n / k⌉` is at most `M`. -/
theorem ceil_batches_le_cap (n M : Nat) (hM : 0 < M) :
    (n + (n / M + 1) - 1) / (n / M + 1) ≤ M := by
  obtain ⟨q, hq⟩ : ∃ q, n / M = q := ⟨_, rfl⟩
  obtain ⟨r, hr, hnr⟩ : ∃ r, r < M ∧ n = M * q + r :=
    ⟨n % M, Nat.mod_lt _ hM, by rw [← hq]; exact (Nat.div_add_mod n M).symm⟩
  rw [hq]
  rw [Nat.div_le_iff_le_mul_add_pred (Nat.succ_pos q)]
  have hn_le : n ≤ (q + 1) * M := by
    calc n = M * q + r := hnr
      _ ≤ M * q + M := by omega
      _ = (q + 1) * M := by ring
  have e1 : n + (q + 1) - 1 = n + q := by omega
  have e2 : q + 1 - 1 = q := by omega
  rw [e1, e2]
  exact Nat.add_le_add_right hn_le q

/-- Claim C5: for every slice list of length `n` and every cap `M ≥ 1`, the
compactor returns the input unchanged when `n ≤ M`; otherwise it groups
consecutive slices into batches of `k = n / M + 1` and returns `⌈n / k⌉`
entries; a batch of size 1 is passed through unchanged; and the output
length never exceeds `M`. -/
theorem merge_large_slices_spec (slice_infos : List SliceInfo) (max_slices : Nat)
    (hM : 1 ≤ max_slices) :
    (merge_large_slices slice_infos max_slices).length ≤ max_slices
  ∧ (slice_infos.length ≤ max_slices →
      merge_large_slices slice_infos max_slices = slice_infos)
  ∧ (max_slices < slice_infos.length →
      (merge_large_slices slice_infos max_slices).length =
        (slice_infos.length + (slice_infos.length / max_slices + 1) - 1) /
          (slice_infos.length / max_slices + 1))
  ∧ (∀ s : SliceInfo, _merge_slice_batch [s] = s) := by
  have hlen : max_slices < slice_infos.length →
      (merge_large_slices slice_infos max_slices).length =
        (slice_infos.length + (slice_infos.length / max_slices + 1) - 1) /
          (slice_infos.length / max_slices + 1) := by
    intro h
    unfold merge_large_slices
    rw [if_neg (by omega)]
    rw [List.length_map,
      chunksOf_length (slice_infos.length / max_slices + 1) (Nat.succ_pos _)]
  refine ⟨?_, ?_, hlen, fun s => rfl⟩
  · by_cases h : slice_infos.length ≤ max_slices
    · unfold merge_large_slices
      rw [if_pos h]
      exact h
    · rw [hlen (by omega)]
      exact ceil_batches_le_cap slice_infos.length max_slices (by omega)
  · intro h
    unfold merge_large_slices
    rw [if_pos h]

/-- Claim C5 witness: 200 one-second slices with cap 50 compact to 50
entries (`k = 5`, `⌈200 / 5⌉ = 40 ≤ 50` — here 40 entries). -/
theorem merge_large_slices_spec_witness :
    (merge_large_slices
        ((List.range 200).map fun i =>
          { path := .slice i, index := i, duration := 1, start_time := (i : Rat) })
        50).length ≤ 50 :=
  (merge_large_slices_spec
    ((List.range 200).map fun i =>
      { path := .slice i, index := i, duration := 1, start_time := (i : Rat) })
    50 (by omega)).1
theorem determine_processing_strategy_table_witness :
    determine_processing_strategy
      [{ filename := "a.wav", path := .upload 0, content_type := "audio/wav",
         duration := 900, file_type := "long", requires_slicing := true }] true
    = .slice_only :=
  (determine_processing_strategy_table
    [{ filename := "a.wav", path := .upload 0, content_type := "audio/wav",
       duration := 900, file_type := "long", requires_slicing := true }] true
    (by simp)).1.mpr ⟨_, rfl, rfl, rfl⟩

end FWT
